import Mathlib

/-!
Verification development for the aa-moonmining repository.

Each section embeds one part of the Python source as executable Lean
definitions (ORM tables become lists of records, dictionaries become
association lists, Celery task bodies become pure state transformers) and
proves or refutes the frozen specification claims about it.
-/

namespace Tasks

/-!
Embedding of the notification-processing part of
`moonplanner/tasks.py :: run_refineries_update` (lines 230-303).

A notification arrives from ESI as a record carrying a `timestamp`, a
`type` string and a YAML `text` payload; the task reads the payload
fields `structureID`, `moonID`, `readyTime`, `autoTime` and
`oreVolumeByType`.  We embed the notification with the payload already
parsed into fields.  Timestamps and LDAP times are modelled as naturals.
-/

/-- Game notification as consumed by `run_refineries_update`: the
`timestamp` and `type` of the ESI record plus the YAML payload fields
the task reads. -/
structure Notification where
  timestamp : Nat
  ntype : String
  structureID : Nat
  moonID : Nat
  readyTime : Nat
  autoTime : Nat
  oreVolumeByType : List (Nat × Nat)
deriving DecidableEq, Repr

/-- Row of the Refinery table, restricted to the fields the notification
loop reads and writes: the structure id (primary key) and the id of the
assigned moon (`None` when no moon was found). -/
structure Refinery where
  id : Nat
  moon : Option Nat
deriving DecidableEq, Repr

/-- Row of the Extraction table: `Extraction.objects.get_or_create` is
keyed on `(refinery, ready_time)` with `auto_time` as a creation
default. -/
structure Extraction where
  refinery_id : Nat
  ready_time : Nat
  auto_time : Nat
deriving DecidableEq, Repr

/-- Row of the ExtractionProduct table:
`ExtractionProduct.objects.get_or_create` is keyed on
`(extraction, eve_type)` with `volume` as a creation default. -/
structure ExtractionProduct where
  refinery_id : Nat
  ready_time : Nat
  ore_type_id : Nat
  volume : Nat
deriving DecidableEq, Repr

/-- Key of the Python dict `last_extraction_started`.  The source writes
`last_extraction_started[id] = extraction` (tasks.py line 279): the bare
name `id` there is the Python *builtin function* `id`, not the local
variable `structure_id`, so the key actually used for insertion is the
builtin function object, while the lookups on lines 295 and 300 use the
integer `structure_id`.  The embedding keeps both possible keys so the
mismatch is represented, not assumed. -/
inductive DictKey where
  | builtinId
  | structId (n : Nat)
deriving DecidableEq, Repr

/-- State threaded through the notification loop: the two ORM tables it
mutates, the ExtractionProduct table, the `moon_updated` flag, the
`last_extraction_started` dict (as an association list) and a ghost
counter of how many times the moon-fix branch executed
`refinery.save()` (tasks.py line 267). -/
structure LoopState where
  refineries : List Refinery
  extractions : List Extraction
  products : List ExtractionProduct
  moon_updated : Bool
  last_extraction_started : List (DictKey × Extraction)
  moon_writes : Nat
deriving DecidableEq, Repr

/-- Notification types handled by the loop (tasks.py lines 246-252). -/
def relevantTypes : List String :=
  ["MoonminingAutomaticFracture", "MoonminingExtractionCancelled",
   "MoonminingExtractionFinished", "MoonminingExtractionStarted",
   "MoonminingLaserFired"]

/-- Lookup `Refinery.objects.get(id=structure_id)`; `DoesNotExist`
becomes `none` (tasks.py lines 254-257). -/
def findRefinery (rs : List Refinery) (sid : Nat) : Option Refinery :=
  rs.find? (fun r => r.id == sid)

/-- Assignment `refinery.moon = moon; refinery.save()` on the row with
the given id. -/
def setRefineryMoon (rs : List Refinery) (sid : Nat) (m : Option Nat) :
    List Refinery :=
  rs.map (fun r => if r.id == sid then { r with moon := m } else r)

/-- Embedding of `Extraction.objects.get_or_create(refinery=...,
ready_time=..., defaults={auto_time})`: return the existing row or
append a new one. -/
def getOrCreateExtraction (es : List Extraction) (rid ready auto : Nat) :
    Extraction × List Extraction :=
  match es.find? (fun e => e.refinery_id == rid && e.ready_time == ready) with
  | some e => (e, es)
  | none => (⟨rid, ready, auto⟩, es ++ [⟨rid, ready, auto⟩])

/-- Embedding of `ExtractionProduct.objects.get_or_create(extraction=...,
eve_type=..., defaults={volume})`. -/
def getOrCreateProduct (ps : List ExtractionProduct) (e : Extraction)
    (tid vol : Nat) : List ExtractionProduct :=
  if ps.any (fun p => p.refinery_id == e.refinery_id &&
      p.ready_time == e.ready_time && p.ore_type_id == tid) then ps
  else ps ++ [⟨e.refinery_id, e.ready_time, tid, vol⟩]

/-- Python dict assignment `d[k] = v` (overwrites any entry for `k`). -/
def dictInsert (d : List (DictKey × Extraction)) (k : DictKey)
    (v : Extraction) : List (DictKey × Extraction) :=
  (k, v) :: d.filter (fun kv => kv.1 != k)

/-- Python membership test `k in d`. -/
def dictContains (d : List (DictKey × Extraction)) (k : DictKey) : Bool :=
  d.any (fun kv => kv.1 == k)

/-- Python lookup `d[k]`, as an option. -/
def dictGet (d : List (DictKey × Extraction)) (k : DictKey) :
    Option Extraction :=
  (d.find? (fun kv => kv.1 == k)).map Prod.snd

/-- Python deletion `del d[k]`. -/
def dictDelete (d : List (DictKey × Extraction)) (k : DictKey) :
    List (DictKey × Extraction) :=
  d.filter (fun kv => kv.1 != k)

/-- Moon-fix body (tasks.py lines 259-267): set `moon_updated`, resolve
the moon of the notification's `moonID`, and reassign and save the
refinery when its moon differs.  The ghost counter counts the saves. -/
def moonFix (s : LoopState) (r : Refinery) (n : Notification) : LoopState :=
  if r.moon ≠ some n.moonID then
    { s with moon_updated := true,
             refineries := setRefineryMoon s.refineries r.id (some n.moonID),
             moon_writes := s.moon_writes + 1 }
  else { s with moon_updated := true }

/-- Guard of the moon-fix branch: `if refinery and not moon_updated`
(tasks.py line 259). -/
def moonFixStep (s : LoopState) (ro : Option Refinery) (n : Notification) :
    LoopState :=
  match ro with
  | some r => if s.moon_updated then s else moonFix s r n
  | none => s

/-- Branch for `MoonminingExtractionStarted` (tasks.py lines 269-290):
unknown refineries are skipped (`continue`), otherwise the extraction is
got-or-created, stored in the dict under the key the source actually
uses — the builtin `id` — and its ore products are got-or-created. -/
def stageStarted (s : LoopState) (ro : Option Refinery) (n : Notification) :
    LoopState :=
  if n.ntype == "MoonminingExtractionStarted" then
    match ro with
    | none => s
    | some r =>
      let p := getOrCreateExtraction s.extractions r.id n.readyTime n.autoTime
      { s with
        extractions := p.2,
        last_extraction_started :=
          dictInsert s.last_extraction_started DictKey.builtinId p.1,
        products := n.oreVolumeByType.foldl
          (fun ps tv => getOrCreateProduct ps p.1 tv.1 tv.2) s.products }
  else s

/-- Branch for `MoonminingExtractionCancelled` (tasks.py lines 294-297):
if `structure_id` is a key of the dict, delete the stored extraction
row. -/
def stageCancelled (s : LoopState) (n : Notification) : LoopState :=
  if n.ntype == "MoonminingExtractionCancelled" then
    if dictContains s.last_extraction_started (DictKey.structId n.structureID)
    then
      match dictGet s.last_extraction_started (DictKey.structId n.structureID)
      with
      | some e => { s with extractions := s.extractions.erase e }
      | none => s
    else s
  else s

/-- Branch for `MoonminingExtractionFinished` (tasks.py lines 299-301):
if `structure_id` is a key of the dict, remove that entry. -/
def stageFinished (s : LoopState) (n : Notification) : LoopState :=
  if n.ntype == "MoonminingExtractionFinished" then
    if dictContains s.last_extraction_started (DictKey.structId n.structureID)
    then
      { s with last_extraction_started :=
          dictDelete s.last_extraction_started (DictKey.structId n.structureID) }
    else s
  else s

/-- Processing of one notification (tasks.py lines 244-301): irrelevant
types are skipped, then the moon-fix branch runs, then the three
type-specific branches (mutually exclusive since the type strings
differ). -/
def processNotification (s : LoopState) (n : Notification) : LoopState :=
  if relevantTypes.contains n.ntype then
    let ro := findRefinery s.refineries n.structureID
    stageFinished (stageCancelled (stageStarted (moonFixStep s ro n) ro n) n) n
  else s

/-- Python's `sorted(notifications, key=lambda k: k["timestamp"])`:
ascending order on the timestamp. -/
def notifLE (a b : Notification) : Prop :=
  a.timestamp ≤ b.timestamp

instance : DecidableRel notifLE :=
  fun a b => Nat.decLe a.timestamp b.timestamp

instance : IsTotal Notification notifLE :=
  ⟨fun a b => Nat.le_total a.timestamp b.timestamp⟩

instance : IsTrans Notification notifLE :=
  ⟨fun _ _ _ => Nat.le_trans⟩

/-- Embedding of `sorted(notifications, key=lambda k: k["timestamp"])`
(tasks.py line 244).  Python's `sorted` is specified to return the
stable ascending reordering of its input, which is exactly the list
computed by (stable) insertion sort on `notifLE`. -/
def pySorted (ns : List Notification) : List Notification :=
  List.insertionSort notifLE ns

/-- Notification-processing part of `run_refineries_update`: fold the
per-notification step over the timestamp-sorted notification list,
starting from the state after the structure update (with
`last_extraction_started = dict()` and `moon_updated = False`). -/
def run_refineries_update (s0 : LoopState) (ns : List Notification) :
    LoopState :=
  (pySorted ns).foldl processNotification s0

/-- C4: every pair of notifications is processed in ascending timestamp
order — the processed sequence is sorted by timestamp and is a
permutation of the fetched notifications, and `run_refineries_update`
folds over exactly that sequence. -/
theorem c4_notifications_processed_in_timestamp_order
    (ns : List Notification) :
    List.Sorted notifLE (pySorted ns) ∧ (pySorted ns).Perm ns ∧
    ∀ s0 : LoopState,
      run_refineries_update s0 ns = (pySorted ns).foldl processNotification s0 :=
  ⟨List.sorted_insertionSort notifLE ns,
   List.perm_insertionSort notifLE ns,
   fun _ => rfl⟩

/-- Initial state for the C1 failing input: one known refinery with id 1
and no moon, empty tables, fresh loop-local variables. -/
def c1State : LoopState :=
  ⟨[⟨1, none⟩], [], [], false, [], 0⟩

/-- Started notification for structure 1 at timestamp 1. -/
def c1Started : Notification :=
  ⟨1, "MoonminingExtractionStarted", 1, 5, 100, 200, [(46300, 1000)]⟩

/-- Cancelled notification for the same structure at timestamp 2, with
no Finished notification in between. -/
def c1Cancelled : Notification :=
  ⟨2, "MoonminingExtractionCancelled", 1, 5, 0, 0, []⟩

/-- C1: failing-input evaluation.  The claim (and the source's own
comment, tasks.py lines 292-293) says the Cancelled notification deletes
the extraction created by the preceding Started notification for the
same structure; evaluating the embedded loop shows the extraction
survives, because the Started branch stores it under the key of the
builtin `id` while the Cancelled branch looks up the integer
`structure_id`, and those keys never coincide. -/
theorem c1_cancelled_leaves_extraction :
    (run_refineries_update c1State [c1Started, c1Cancelled]).extractions
      = [⟨1, 100, 200⟩] ∧
    (∀ n : Nat, DictKey.structId n ≠ DictKey.builtinId) := by
  refine ⟨by decide, ?_⟩
  intro n h
  exact DictKey.noConfusion h

/-- Ghost budget for the at-most-once argument: the save counter plus
one remaining allowed save while `moon_updated` is still false. -/
def moonBudget (s : LoopState) : Nat :=
  s.moon_writes + (if s.moon_updated then 0 else 1)

theorem stageStarted_preserves (s : LoopState) (ro : Option Refinery)
    (n : Notification) :
    (stageStarted s ro n).refineries = s.refineries ∧
    (stageStarted s ro n).moon_updated = s.moon_updated ∧
    (stageStarted s ro n).moon_writes = s.moon_writes := by
  unfold stageStarted
  split
  · rcases ro with _ | r
    · exact ⟨rfl, rfl, rfl⟩
    · exact ⟨rfl, rfl, rfl⟩
  · exact ⟨rfl, rfl, rfl⟩

theorem stageCancelled_preserves (s : LoopState) (n : Notification) :
    (stageCancelled s n).refineries = s.refineries ∧
    (stageCancelled s n).moon_updated = s.moon_updated ∧
    (stageCancelled s n).moon_writes = s.moon_writes := by
  unfold stageCancelled
  split
  · split
    · split
      · exact ⟨rfl, rfl, rfl⟩
      · exact ⟨rfl, rfl, rfl⟩
    · exact ⟨rfl, rfl, rfl⟩
  · exact ⟨rfl, rfl, rfl⟩

theorem stageFinished_preserves (s : LoopState) (n : Notification) :
    (stageFinished s n).refineries = s.refineries ∧
    (stageFinished s n).moon_updated = s.moon_updated ∧
    (stageFinished s n).moon_writes = s.moon_writes := by
  unfold stageFinished
  split
  · split
    · exact ⟨rfl, rfl, rfl⟩
    · exact ⟨rfl, rfl, rfl⟩
  · exact ⟨rfl, rfl, rfl⟩

theorem moonFix_budget (s : LoopState) (r : Refinery) (n : Notification)
    (h : s.moon_updated = false) :
    moonBudget (moonFix s r n) ≤ moonBudget s := by
  unfold moonFix moonBudget
  split
  · simp [h]
  · simp [h]

theorem moonFixStep_budget (s : LoopState) (ro : Option Refinery)
    (n : Notification) :
    moonBudget (moonFixStep s ro n) ≤ moonBudget s := by
  unfold moonFixStep
  rcases ro with _ | r
  · exact Nat.le_refl _
  · by_cases h : s.moon_updated
    · simp [h]
    · simp only [h, if_false]
      exact moonFix_budget s r n (by simpa using h)

theorem processNotification_budget (s : LoopState) (n : Notification) :
    moonBudget (processNotification s n) ≤ moonBudget s := by
  unfold processNotification
  split
  · set s1 := moonFixStep s (findRefinery s.refineries n.structureID) n with hs1
    set s2 := stageStarted s1 (findRefinery s.refineries n.structureID) n
      with hs2
    set s3 := stageCancelled s2 n with hs3
    have h2 := stageStarted_preserves s1 (findRefinery s.refineries n.structureID) n
    have h3 := stageCancelled_preserves s2 n
    have h4 := stageFinished_preserves s3 n
    have e4 : moonBudget (stageFinished s3 n) = moonBudget s3 := by
      unfold moonBudget
      rw [h4.2.1, h4.2.2]
    have e3 : moonBudget s3 = moonBudget s2 := by
      unfold moonBudget
      rw [hs3, h3.2.1, h3.2.2]
    have e2 : moonBudget s2 = moonBudget s1 := by
      unfold moonBudget
      rw [hs2, h2.2.1, h2.2.2]
    rw [e4, e3, e2]
    exact moonFixStep_budget s _ n
  · exact Nat.le_refl _

theorem foldl_budget (ns : List Notification) :
    ∀ s : LoopState, moonBudget (ns.foldl processNotification s) ≤ moonBudget s := by
  induction ns with
  | nil => intro s; exact Nat.le_refl _
  | cons n ns ih =>
    intro s
    exact Nat.le_trans (ih (processNotification s n))
      (processNotification_budget s n)

theorem moonFixStep_of_updated (s : LoopState) (ro : Option Refinery)
    (n : Notification) (h : s.moon_updated = true) :
    moonFixStep s ro n = s := by
  unfold moonFixStep
  rcases ro with _ | r
  · rfl
  · simp [h]

/-- C9: the moon-assignment fix happens at most once per run — starting
from a state with `moon_updated = False`, the whole run performs at most
one `refinery.save()` in the moon-fix branch, and once the flag is set,
processing any further notification leaves every refinery row (hence
every moon assignment) unchanged. -/
theorem c9_moon_fix_applied_at_most_once (s0 : LoopState)
    (h : s0.moon_updated = false) (ns : List Notification) :
    (run_refineries_update s0 ns).moon_writes ≤ s0.moon_writes + 1 ∧
    ∀ (s : LoopState) (n : Notification), s.moon_updated = true →
      (processNotification s n).refineries = s.refineries := by
  constructor
  · have hb : moonBudget ((pySorted ns).foldl processNotification s0)
        ≤ moonBudget s0 := foldl_budget (pySorted ns) s0
    have h0 : moonBudget s0 = s0.moon_writes + 1 := by
      simp [moonBudget, h]
    have hw : (run_refineries_update s0 ns).moon_writes
        ≤ moonBudget (run_refineries_update s0 ns) :=
      Nat.le_add_right _ _
    calc (run_refineries_update s0 ns).moon_writes
        ≤ moonBudget (run_refineries_update s0 ns) := hw
      _ ≤ moonBudget s0 := hb
      _ = s0.moon_writes + 1 := h0
  · intro s n hupd
    unfold processNotification
    split
    · dsimp only
      rw [moonFixStep_of_updated s _ n hupd]
      set s2 := stageStarted s (findRefinery s.refineries n.structureID) n
        with hs2
      have h2 := stageStarted_preserves s (findRefinery s.refineries n.structureID) n
      have h3 := stageCancelled_preserves s2 n
      have h4 := stageFinished_preserves (stageCancelled s2 n) n
      rw [h4.1, h3.1, hs2, h2.1]
    · rfl

/-- C9 witness: instantiation at a concrete state with the flag clear
and an empty notification list. -/
theorem c9_witness :
    (run_refineries_update ⟨[⟨7, none⟩], [], [], false, [], 0⟩ []).moon_writes
      ≤ 0 + 1 :=
  (c9_moon_fix_applied_at_most_once ⟨[⟨7, none⟩], [], [], false, [], 0⟩ rfl []).1

end Tasks

namespace Managers

/-!
Embedding of parts of `moonmining/managers.py`.
-/

/-- Dispatch structure of a job's per-object work: either a plain
sequential loop in the calling thread, or submission to a
`concurrent.futures.ThreadPoolExecutor` with the given `max_workers`. -/
inductive ExecMode where
  | sequential
  | threadPool (maxWorkers : Nat)
deriving DecidableEq, Repr

/-- Constant `MAX_THREAD_WORKERS = 20` (managers.py line 18). -/
def MAX_THREAD_WORKERS : Nat := 20

/-- Dispatch used by
`UpdateCalculatedPropertiesMixin.update_calculated_properties`
(managers.py lines 41-50): the selected primary keys are mapped over a
`ThreadPoolExecutor(max_workers=MAX_THREAD_WORKERS)` via
`executor.map(self._thread_update_obj, list(obj_pks))`. -/
def update_calculated_properties_dispatch : ExecMode :=
  ExecMode.threadPool MAX_THREAD_WORKERS

/-- C2 counterexample: the claim says the per-object updates run one at
a time in a single thread of control, i.e. the dispatch is sequential;
the source dispatches them to a thread pool instead. -/
theorem c2_counterexample :
    ¬ update_calculated_properties_dispatch = ExecMode.sequential := by
  decide

/-- C2 (amended): `update_calculated_properties` dispatches the
per-object updates of the selected queryset to a thread pool with up to
`MAX_THREAD_WORKERS = 20` concurrent worker threads, so the job does
have intra-job parallelism at this step. -/
theorem c2_thread_pool_dispatch :
    update_calculated_properties_dispatch = ExecMode.threadPool 20 ∧
    MAX_THREAD_WORKERS = 20 := by
  exact ⟨rfl, rfl⟩

/-- Point at which the per-survey processing of a stored survey fails,
relative to the database transaction that replaces the moon's product
set. -/
inductive FailPoint where
  | parse
  | replace
  | calc
deriving DecidableEq, Repr

/-- Per-survey body of `MoonManager._process_surveys` (managers.py lines
151-197), as a transformer of the moon's stored product set.  `prev` is
the stored set, `newProducts` the set parsed from the survey, `fail`
where the body raises (if anywhere).  Header parsing, the ESI lookups
and the building of `moon_products` (lines 154-172) happen before the
transaction (`FailPoint.parse`); `transaction.atomic()` wraps exactly
`moon.products.all().delete()` and `MoonProduct.objects.bulk_create`
(lines 174-176, `FailPoint.replace`), so a failure inside it rolls the
deletion back; `moon.update_calculated_properties()` (line 178,
`FailPoint.calc`) runs after the transaction has committed.  The result
is the stored product set afterwards and the per-survey success flag. -/
def managersProcessOneSurvey (prev newProducts : List (Nat × Nat))
    (fail : Option FailPoint) : List (Nat × Nat) × Bool :=
  match fail with
  | some FailPoint.parse => (prev, false)
  | some FailPoint.replace => (prev, false)
  | some FailPoint.calc => (newProducts, false)
  | none => (newProducts, true)

/-- Per-survey body of the legacy task `process_survey_input`
(moonplanner/tasks.py lines 98-134): there `transaction.atomic()` wraps
the entire body — header parsing, `moon.products.all().delete()`, the
`MoonProduct.objects.create` calls and `moon.update_income_estimate()` —
so a failure at any point rolls the whole replacement back. -/
def tasksProcessOneSurvey (prev newProducts : List (Nat × Nat))
    (fail : Option FailPoint) : List (Nat × Nat) × Bool :=
  match fail with
  | some _ => (prev, false)
  | none => (newProducts, true)

/-- C5 counterexample: in `MoonManager._process_surveys` a survey whose
processing fails in `update_calculated_properties`, after the
transaction has committed, is reported as failed while the moon's
previously stored product set has been replaced — contradicting the
claim that a failed survey leaves the previous product set unchanged. -/
theorem c5_counterexample :
    managersProcessOneSurvey [(45506, 1)] [(46300, 2)]
      (some FailPoint.calc) = ([(46300, 2)], false) ∧
    ([(46300, 2)] : List (Nat × Nat)) ≠ [(45506, 1)] := by
  exact ⟨rfl, by decide⟩

/-- C5 (amended): deletion of the moon's existing products and creation
of the newly parsed ones do happen inside a single database transaction
in both implementations, so a failure before that transaction commits
(while parsing, or inside the delete/create block) leaves the
previously stored product set unchanged; in the legacy task every
failure leaves it unchanged, but in `MoonManager._process_surveys` a
failure in the post-commit recalculation marks the survey failed with
the new product set already committed. -/
theorem c5_transactional_replacement
    (prev newProducts : List (Nat × Nat)) (fail : Option FailPoint) :
    ((tasksProcessOneSurvey prev newProducts fail).2 = false →
      (tasksProcessOneSurvey prev newProducts fail).1 = prev) ∧
    (fail = some FailPoint.parse ∨ fail = some FailPoint.replace →
      managersProcessOneSurvey prev newProducts fail = (prev, false)) ∧
    managersProcessOneSurvey prev newProducts (some FailPoint.calc)
      = (newProducts, false) := by
  refine ⟨?_, ?_, rfl⟩
  · intro hf
    rcases fail with _ | f
    · simp [tasksProcessOneSurvey] at hf
    · rfl
  · intro hf
    rcases hf with hf | hf <;> rw [hf] <;> rfl

/-- C5 witness: instantiation at a concrete failing-inside-transaction
input. -/
theorem c5_witness :
    ((tasksProcessOneSurvey [(45506, 1)] [(46300, 2)]
        (some FailPoint.replace)).2 = false →
      (tasksProcessOneSurvey [(45506, 1)] [(46300, 2)]
        (some FailPoint.replace)).1 = [(45506, 1)]) ∧
    (some FailPoint.replace = some FailPoint.parse ∨
        some FailPoint.replace = some FailPoint.replace →
      managersProcessOneSurvey [(45506, 1)] [(46300, 2)]
        (some FailPoint.replace) = ([(45506, 1)], false)) ∧
    managersProcessOneSurvey [(45506, 1)] [(46300, 2)]
      (some FailPoint.calc) = ([(46300, 2)], false) :=
  c5_transactional_replacement [(45506, 1)] [(46300, 2)]
    (some FailPoint.replace)

end Managers

namespace Models

/-!
Model of the ESI-error behaviour of the background update methods on
`Owner` and `Refinery`.
-/

/-- Error raised by the external API client. -/
inductive EsiError where
  | osError
deriving DecidableEq, Repr

/-- Owner/refinery record as seen by a background update job: the ids
of the refineries currently stored for it, the boolean "last update ok"
flag and the last-update timestamp. -/
structure OwnerState where
  refineries : List Nat
  last_update_ok : Option Bool
  last_update_at : Option Nat
deriving DecidableEq, Repr

/-- Modelled from the spec: `Owner.update_refineries_from_esi` and
`Refinery.update_mining_ledger_from_esi` live in
`moonmining/models.py`, which is not among the provided sources — only
their tests are (`test_models.py`,
`TestOwnerUpdateRefineries.test_should_not_remove_refineries_after_OSError_in_corporation_structures`
and `TestOwnerUpdateMiningLedger.test_should_mark_when_update_failed`).
Per the spec, "Errors from the external API abort the current
background job and are surfaced via logs and a boolean last update ok
flag on the owner/refinery record": when the fetch from the external
API raises, the job records the attempt time, sets the flag to False,
changes nothing else and re-raises the error; when it succeeds, the
stored refinery set is rebuilt from the fetched structures and the flag
is set to True.  The result pairs the record afterwards with the
propagated error, if any. -/
def update_refineries_from_esi (o : OwnerState)
    (fetched : Except EsiError (List Nat)) (t : Nat) :
    OwnerState × Option EsiError :=
  match fetched with
  | Except.error e =>
    ({ o with last_update_ok := some false, last_update_at := some t },
      some e)
  | Except.ok structs =>
    ({ refineries := structs, last_update_ok := some true,
       last_update_at := some t }, none)

/-- C3: when the external API raises during a background update, the
job propagates the error, the "last update ok" flag is False with the
attempt timestamp recorded, and the stored refinery set is exactly what
it was before. -/
theorem c3_esi_error_aborts_and_marks (o : OwnerState) (e : EsiError)
    (t : Nat) :
    (update_refineries_from_esi o (Except.error e) t).2 = some e ∧
    (update_refineries_from_esi o (Except.error e) t).1.last_update_ok
      = some false ∧
    (update_refineries_from_esi o (Except.error e) t).1.last_update_at
      = some t ∧
    (update_refineries_from_esi o (Except.error e) t).1.refineries
      = o.refineries :=
  ⟨rfl, rfl, rfl, rfl⟩

end Models

namespace Views

/-!
Embedding of the view functions of `moonmining/views.py` that the claims
touch.
-/

/-- Extraction row as filtered by `extractions_data`: primary key and
`ready_time` (a timestamp, modelled in seconds). -/
structure ExtractionRow where
  pk : Nat
  ready_time : Int
deriving DecidableEq, Repr

/-- Category filter of `extractions_data` (views.py lines 91-106): the
cutover is `now() - dt.timedelta(hours=MOONMINING_EXTRACTIONS_HOURS_UNTIL_STALE)`;
category `past` keeps rows with `ready_time < cutover`, `upcoming`
keeps rows with `ready_time >= cutover` (Django lookups `__lt` and
`__gte`), and any other category yields `Extraction.objects.none()`.
`ExtractionsCategory` is a `str` enum, so the comparisons are string
comparisons with `past` and `upcoming`.  Times are in seconds, so the
stale-hours setting is multiplied by 3600. -/
def extractions_data (category : String) (nowT staleHours : Int)
    (exts : List ExtractionRow) : List ExtractionRow :=
  let cutover_dt := nowT - staleHours * 3600
  if category == "past" then
    exts.filter (fun e => decide (e.ready_time < cutover_dt))
  else if category == "upcoming" then
    exts.filter (fun e => decide (cutover_dt ≤ e.ready_time))
  else []

/-- C6: for a fixed evaluation time, `past` returns exactly the
extractions whose ready time is strictly before the staleness cutover,
`upcoming` exactly those at or after it, every extraction falls in
exactly one of the two, and any other category string yields the empty
list. -/
theorem c6_extractions_partition (nowT staleHours : Int)
    (exts : List ExtractionRow) (e : ExtractionRow) :
    (e ∈ extractions_data "past" nowT staleHours exts ↔
      e ∈ exts ∧ e.ready_time < nowT - staleHours * 3600) ∧
    (e ∈ extractions_data "upcoming" nowT staleHours exts ↔
      e ∈ exts ∧ nowT - staleHours * 3600 ≤ e.ready_time) ∧
    (e ∈ exts →
      (e ∈ extractions_data "past" nowT staleHours exts ∧
        e ∉ extractions_data "upcoming" nowT staleHours exts) ∨
      (e ∉ extractions_data "past" nowT staleHours exts ∧
        e ∈ extractions_data "upcoming" nowT staleHours exts)) ∧
    (∀ category : String, category ≠ "past" → category ≠ "upcoming" →
      extractions_data category nowT staleHours exts = []) := by
  have hpast : e ∈ extractions_data "past" nowT staleHours exts ↔
      e ∈ exts ∧ e.ready_time < nowT - staleHours * 3600 := by
    simp [extractions_data, List.mem_filter]
  have hup : e ∈ extractions_data "upcoming" nowT staleHours exts ↔
      e ∈ exts ∧ nowT - staleHours * 3600 ≤ e.ready_time := by
    simp [extractions_data, List.mem_filter]
  refine ⟨hpast, hup, ?_, ?_⟩
  · intro hmem
    by_cases hlt : e.ready_time < nowT - staleHours * 3600
    · left
      refine ⟨hpast.mpr ⟨hmem, hlt⟩, ?_⟩
      intro hcontra
      exact absurd (hup.mp hcontra).2 (not_le.mpr hlt)
    · right
      refine ⟨?_, hup.mpr ⟨hmem, not_lt.mp hlt⟩⟩
      intro hcontra
      exact absurd (hpast.mp hcontra).2 hlt
  · intro category h1 h2
    simp [extractions_data, h1, h2]

/-- C6 witness: a stale extraction lands in `past` and not in
`upcoming`, and an unknown category string yields the empty list. -/
theorem c6_witness :
    ((⟨1, -100000⟩ : ExtractionRow) ∈
        extractions_data "past" 0 12 [⟨1, -100000⟩] ∧
      (⟨1, -100000⟩ : ExtractionRow) ∉
        extractions_data "upcoming" 0 12 [⟨1, -100000⟩]) ∨
    ((⟨1, -100000⟩ : ExtractionRow) ∉
        extractions_data "past" 0 12 [⟨1, -100000⟩] ∧
      (⟨1, -100000⟩ : ExtractionRow) ∈
        extractions_data "upcoming" 0 12 [⟨1, -100000⟩]) :=
  (c6_extractions_partition 0 12 [⟨1, -100000⟩] ⟨1, -100000⟩).2.2.1
    (by simp)

/-- Permission flags of the requesting user that `moon_details` reads
via `request.user.has_perm`. -/
structure UserPerms where
  view_all_moons : Bool
  extractions_access : Bool
deriving DecidableEq, Repr

/-- Responses `moon_details` can produce.  `HttpResponseNotFound` is
Django's 404 response.  Modelled from the spec:
`HttpResponseUnauthorized` is imported from `moonmining/helpers.py`,
which is not among the provided sources; per its name and the claim's
reading of the web surface it is the HTTP 401 Unauthorized response.
`rendered` is the rendered details page (HTTP 200). -/
inductive MDResponse where
  | notFound
  | unauthorized
  | rendered
deriving DecidableEq, Repr

/-- HTTP status code of each response. -/
def MDResponse.status : MDResponse → Nat
  | MDResponse.notFound => 404
  | MDResponse.unauthorized => 401
  | MDResponse.rendered => 200

/-- Body of `moon_details` (views.py lines 140-148): fetch the moon by
primary key, returning 404 on `Moon.DoesNotExist`; then return 401 when
the user has neither `view_all_moons` nor `extractions_access`;
otherwise render the page.  The moon table is modelled by its list of
primary keys. -/
def moon_details (moons : List Nat) (moon_pk : Nat) (u : UserPerms) :
    MDResponse :=
  match moons.find? (fun pk => pk == moon_pk) with
  | none => MDResponse.notFound
  | some _ =>
    if !u.view_all_moons && !u.extractions_access then
      MDResponse.unauthorized
    else MDResponse.rendered

/-- C7: a missing moon gives HTTP 404 regardless of the user's
permissions (the existence check comes first), an existing moon with
neither permission gives HTTP 401, and an existing moon with either
permission renders the page. -/
theorem c7_moon_details_responses (moons : List Nat) (pk : Nat)
    (u : UserPerms) :
    (pk ∉ moons → moon_details moons pk u = MDResponse.notFound ∧
      (moon_details moons pk u).status = 404) ∧
    (pk ∈ moons → u.view_all_moons = false → u.extractions_access = false →
      moon_details moons pk u = MDResponse.unauthorized ∧
      (moon_details moons pk u).status = 401) ∧
    (pk ∈ moons →
      (u.view_all_moons = true ∨ u.extractions_access = true) →
      moon_details moons pk u = MDResponse.rendered) := by
  refine ⟨?_, ?_, ?_⟩
  · intro hmem
    have hfind : moons.find? (fun x => x == pk) = none := by
      rw [List.find?_eq_none]
      intro x hx hbeq
      rw [beq_iff_eq] at hbeq
      exact hmem (hbeq ▸ hx)
    constructor
    · simp [moon_details, hfind]
    · simp [moon_details, hfind, MDResponse.status]
  · intro hmem h1 h2
    have hsome : (moons.find? (fun x => x == pk)).isSome :=
      List.find?_isSome.mpr ⟨pk, hmem, by simp⟩
    obtain ⟨y, hy⟩ := Option.isSome_iff_exists.mp hsome
    constructor
    · simp [moon_details, hy, h1, h2]
    · simp [moon_details, hy, h1, h2, MDResponse.status]
  · intro hmem hperm
    have hsome : (moons.find? (fun x => x == pk)).isSome :=
      List.find?_isSome.mpr ⟨pk, hmem, by simp⟩
    obtain ⟨y, hy⟩ := Option.isSome_iff_exists.mp hsome
    rcases hperm with h | h <;> simp [moon_details, hy, h]

/-- C7 witness: a user with no permissions asking for an existing moon
receives HTTP 401. -/
theorem c7_witness :
    moon_details [3] 3 ⟨false, false⟩ = MDResponse.unauthorized ∧
    (moon_details [3] 3 ⟨false, false⟩).status = 401 :=
  (c7_moon_details_responses [3] 3 ⟨false, false⟩).2.1 (by simp) rfl rfl

end Views

namespace Surveys

/-!
Embedding of the survey-processing pair: the legacy Celery task
`process_survey_input` (moonplanner/tasks.py lines 44-164) and
`MoonManager.update_moons_from_survey` (moonmining/managers.py lines
80-198).  The parsing blocks of the two sources are character-identical
(tasks.py lines 54-85 and managers.py lines 104-134), so they are
embedded once.  Raw text is modelled at the character level; a line is a
list of cells (each a list of characters).
-/

/-- Python `line.strip("\r")`: remove leading and trailing carriage
returns. -/
def stripCR (s : List Char) : List Char :=
  ((s.dropWhile (fun c => c == '\r')).reverse.dropWhile
    (fun c => c == '\r')).reverse

/-- Python `s.split(sep)` for a one-character separator: split on every
occurrence, keeping empty pieces, with `[""]` for the empty string. -/
def splitOnChar (c : Char) : List Char → List (List Char)
  | [] => [[]]
  | a :: rest =>
    let r := splitOnChar c rest
    if a == c then [] :: r
    else
      match r with
      | [] => [[a]]
      | g :: gs => (a :: g) :: gs

/-- Lines of the raw scan input: `scans.split("\n")`, then per line
`line.strip("\r").split("\t")`. -/
def parseLines (scans : String) : List (List (List Char)) :=
  (splitOnChar '\n' scans.toList).map
    (fun line => splitOnChar '\t' (stripCR line))

/-- Header drop: `if len(lines[0]) == 0 or lines[0][0] == "Moon":
lines = lines[1:]`.  `split` never returns an empty list, so `lines`
is never empty and every line has a first cell; the `[]` branch is
unreachable. -/
def dropHeader (lines : List (List (List Char))) : List (List (List Char)) :=
  match lines with
  | [] => []
  | l0 :: rest =>
    if l0.length == 0 || l0.headD [] == "Moon".toList then rest
    else l0 :: rest

/-- Indices of the lines that start a survey (`sublists`): for every
line whose first cell is non-empty Python appends `lines.index(line)`,
the index of the *first* occurrence of an equal line. -/
def sublistsOf (lines : List (List (List Char))) : List Nat :=
  lines.foldl
    (fun acc line =>
      if line.headD [] == ([] : List Char) then acc
      else acc ++ [lines.indexOf line]) []

/-- Cutting out the individual surveys: for each `i`, either
`lines[sublists[i]:]` when `i + 2 > len(sublists)` or
`lines[sublists[i]:sublists[i+1]]` (the `i == 0` and `else` branches of
the source are identical).  Python slices clamp, which the
natural-number subtraction in `take` reproduces. -/
def surveysFrom (lines : List (List (List Char))) (sub : List Nat) :
    List (List (List (List Char))) :=
  (List.range sub.length).foldl
    (fun acc i =>
      if i + 2 > sub.length then acc ++ [lines.drop (sub.getD i 0)]
      else acc ++
        [(lines.drop (sub.getD i 0)).take (sub.getD (i + 1) 0 - sub.getD i 0)])
    []

/-- The survey list both implementations compute from the raw input.
For a string input the surrounding try/except of the parsing block can
never fire (string splitting and list indexing of the always-nonempty
split results raise nothing), so parsing is total. -/
def splitSurveys (scans : String) : List (List (List (List Char))) :=
  let lines := dropHeader (parseLines scans)
  surveysFrom lines (sublistsOf lines)

/-- Per-survey processing outcomes.  Whether processing of the i-th
parsed survey raises depends on the database and the external API, so
it enters the model as an oracle indexed by the survey's position.
Both implementations catch per-survey exceptions and continue with the
next survey, so every parsed survey yields exactly one result. -/
def surveyResults (scans : String) (procOk : Nat → Bool) : List Bool :=
  (List.range (splitSurveys scans).length).map procOk

/-- Overall success value returned by the legacy task
`process_survey_input`: inside the survey loop `success` is reassigned
on every iteration (True after a processed survey, False after a failed
one), so after the loop it holds the outcome of the *last* survey (True
when there was none).  Only when a submitting user is present does the
report loop (tasks.py lines 137-151) additionally force `success` to
False for every failed survey. -/
def process_survey_input (scans : String) (procOk : Nat → Bool)
    (hasUser : Bool) : Bool :=
  if hasUser then
    if (surveyResults scans procOk).isEmpty then
      (surveyResults scans procOk).foldl (fun _ b => b) true
    else
      (surveyResults scans procOk).foldl (fun s b => if b then s else false)
        ((surveyResults scans procOk).foldl (fun _ b => b) true)
  else (surveyResults scans procOk).foldl (fun _ b => b) true

/-- Overall success value returned by
`MoonManager.update_moons_from_survey`: when no survey was parsed the
result is False; otherwise `_process_surveys` keeps `overall_success`,
cleared by any failed survey, and the report step
(`_send_survey_process_report_to_user`, reached when a user is present)
only ever clears it further. -/
def update_moons_from_survey (scans : String) (procOk : Nat → Bool)
    (hasUser : Bool) : Bool :=
  if (splitSurveys scans).isEmpty then false
  else if hasUser then
    (surveyResults scans procOk).foldl (fun s b => if b then s else false)
      ((surveyResults scans procOk).foldl (fun s b => s && b) true)
  else (surveyResults scans procOk).foldl (fun s b => s && b) true

theorem foldl_keep_last (l : List Bool) (a : Bool) :
    l.foldl (fun _ b => b) a = l.getLastD a := by
  induction l generalizing a with
  | nil => rfl
  | cons b t ih =>
    rw [List.foldl_cons, List.getLastD_cons]
    exact ih b

theorem foldl_and_eq_all (l : List Bool) (a : Bool) :
    l.foldl (fun s b => s && b) a = (a && l.all id) := by
  induction l generalizing a with
  | nil => simp
  | cons b t ih => simp [List.foldl_cons, ih, Bool.and_assoc]

theorem foldl_clear_eq_all (l : List Bool) (a : Bool) :
    l.foldl (fun s b => if b then s else false) a = (a && l.all id) := by
  induction l generalizing a with
  | nil => simp
  | cons b t ih =>
    cases b
    · rw [List.foldl_cons, if_neg (fun h => Bool.noConfusion h), ih false,
        List.all_cons]
      simp only [id_eq, Bool.false_and, Bool.and_false]
    · rw [List.foldl_cons, if_pos rfl, ih a, List.all_cons]
      simp only [id_eq, Bool.true_and]

theorem getLastD_of_all (l : List Bool) :
    ∀ d : Bool, l.all id = true → d = true → l.getLastD d = true := by
  induction l with
  | nil => intro d _ hd; exact hd
  | cons b t ih =>
    intro d hall _
    rw [List.getLastD_cons]
    have hb : b = true ∧ t.all id = true := by simpa using hall
    exact ih b hb.2 hb.1

theorem getLastD_and_all (l : List Bool) :
    (l.getLastD true && l.all id) = l.all id := by
  cases hall : l.all id
  · simp
  · rw [getLastD_of_all l true hall rfl]
    rfl

/-- C8 counterexample: on input text that parses to zero surveys (a
single line whose first cell is empty — for example the empty string)
the legacy task returns True while `update_moons_from_survey` returns
False, so the two do not return the same overall success value. -/
theorem c8_counterexample :
    process_survey_input "" (fun _ => true) false = true ∧
    update_moons_from_survey "" (fun _ => true) false = false := by
  exact ⟨rfl, rfl⟩

/-- C8 (amended): both implementations run the character-identical
parsing code (embedded once as `splitSurveys`) and produce one result
per parsed survey, continuing after individual failures.  Their return
values agree — every parsed survey succeeded — whenever at least one
survey was parsed and a submitting user is present; but
`update_moons_from_survey` always returns "some survey parsed and all
succeeded", while `process_survey_input` without a user returns the
success of the last parsed survey alone (True when none was parsed). -/
theorem c8_survey_processing_relation (scans : String)
    (procOk : Nat → Bool) :
    (surveyResults scans procOk).length = (splitSurveys scans).length ∧
    (splitSurveys scans ≠ [] →
      process_survey_input scans procOk true
        = update_moons_from_survey scans procOk true) ∧
    (∀ hasUser : Bool, update_moons_from_survey scans procOk hasUser
      = (!(splitSurveys scans).isEmpty && (surveyResults scans procOk).all id)) ∧
    process_survey_input scans procOk false
      = (surveyResults scans procOk).getLastD true := by
  have hman : ∀ hasUser : Bool, update_moons_from_survey scans procOk hasUser
      = (!(splitSurveys scans).isEmpty && (surveyResults scans procOk).all id) := by
    intro hasUser
    by_cases hs : (splitSurveys scans).isEmpty = true
    · unfold update_moons_from_survey
      rw [if_pos hs, hs]
      rfl
    · have hs' : (splitSurveys scans).isEmpty = false := by
        revert hs
        cases (splitSurveys scans).isEmpty <;> simp
      unfold update_moons_from_survey
      rw [if_neg hs]
      cases hasUser
      · rw [if_neg (fun h => Bool.noConfusion h), foldl_and_eq_all, hs']
        rfl
      · rw [if_pos rfl, foldl_clear_eq_all, foldl_and_eq_all, hs']
        simp only [Bool.true_and, Bool.not_false, Bool.and_self]
  refine ⟨by simp [surveyResults], ?_, hman, ?_⟩
  · intro h
    have hres : surveyResults scans procOk ≠ [] := by
      intro hc
      apply h
      have hlen := congrArg List.length hc
      simp only [surveyResults, List.length_map, List.length_range,
        List.length_nil] at hlen
      exact List.length_eq_zero.mp hlen
    have hresne : ¬((surveyResults scans procOk).isEmpty = true) := by
      revert hres
      cases surveyResults scans procOk <;> simp
    have hsurvne : (splitSurveys scans).isEmpty = false := by
      revert h
      cases splitSurveys scans <;> simp
    rw [hman true]
    unfold process_survey_input
    rw [if_pos rfl, if_neg hresne, foldl_keep_last, foldl_clear_eq_all,
      getLastD_and_all _, hsurvne]
    rfl
  · unfold process_survey_input
    rw [if_neg (fun h => Bool.noConfusion h)]
    exact foldl_keep_last _ _

/-- C8 witness: on a one-survey input with a submitting user the two
implementations agree. -/
theorem c8_witness :
    process_survey_input "x" (fun _ => true) true
      = update_moons_from_survey "x" (fun _ => true) true :=
  (c8_survey_processing_relation "x" (fun _ => true)).2.1 (by decide)

end Surveys

namespace Reports

/-!
Embedding of `report_owned_value_data` (moonmining/views.py lines
369-434).  Moon values are Python floats; the model uses exact rationals
for the same arithmetic.
-/

/-- Owned moon as iterated by the report: primary key, owning
corporation name (`moon.refinery.owner.name`) and calculated value
(`None` when never calculated). -/
structure OwnedMoon where
  pk : Nat
  corporation : String
  value : Option ℚ
deriving DecidableEq, Repr

/-- Helper `default_if_none(value, default)` (views.py lines 63-67). -/
def default_if_none (v : Option ℚ) (d : ℚ) : ℚ :=
  match v with
  | none => d
  | some x => x

/-- One `defaultdict` update (views.py lines 380-383): find the
corporation's entry — insertion order is preserved — append the moon to
its list and add `default_if_none(moon.value, 0)` to its total,
creating the entry at the end when the corporation is new. -/
def addMoonToGroups :
    List (String × List OwnedMoon × ℚ) → OwnedMoon →
      List (String × List OwnedMoon × ℚ)
  | [], m => [(m.corporation, [m], default_if_none m.value 0)]
  | g :: gs, m =>
    if g.1 == m.corporation then
      (g.1, g.2.1 ++ [m], g.2.2 + default_if_none m.value 0) :: gs
    else g :: addMoonToGroups gs m

/-- The `corporation_moons` dict after the grouping loop, for the moons
in query order. -/
def corporation_moons (moons : List OwnedMoon) :
    List (String × List OwnedMoon × ℚ) :=
  moons.foldl addMoonToGroups []

/-- The sum `grand_total = sum([corporation["total"] for corporation in
corporation_moons.values()])` (views.py lines 393-395). -/
def grand_total (moons : List OwnedMoon) : ℚ :=
  ((corporation_moons moons).map (fun g => g.2.2)).sum

/-- Descending-value comparison of the rank query
`filter(value__isnull=False).order_by("-value")`; applied only to moons
with a value, where `default_if_none` is the value itself. -/
def rankGE (a b : OwnedMoon) : Prop :=
  default_if_none b.value 0 ≤ default_if_none a.value 0

instance : DecidableRel rankGE :=
  fun a b =>
    inferInstanceAs (Decidable (default_if_none b.value 0 ≤ default_if_none a.value 0))

/-- The `moon_ranks` mapping (views.py lines 385-392): primary keys of
the moons that have a value, in descending value order, enumerated. -/
def moon_ranks (moons : List OwnedMoon) : List (Nat × Nat) :=
  ((List.insertionSort rankGE (moons.filter (fun m => m.value.isSome))).map
    (fun m => m.pk)).enum.map (fun p => (p.2, p.1))

/-- Rank cell of a moon row: `moon_ranks[moon.pk] + 1 if moon.pk in
moon_ranks else None` (views.py line 406). -/
def lookupRank (ranks : List (Nat × Nat)) (pk : Nat) : Option Nat :=
  (ranks.find? (fun p => p.1 == pk)).map (fun p => p.2 + 1)

/-- Report row, restricted to the fields the claim is about plus the
rank (display strings omitted). -/
structure ReportRow where
  corporation : String
  value : Option ℚ
  rank : Option Nat
  total : Option ℚ
  is_total : Bool
  grand_total_percent : Option ℚ
deriving DecidableEq, Repr

/-- Rows emitted for one corporation (views.py lines 397-433): one row
per moon, whose `grand_total_percent` is
`default_if_none(moon.value, 0) / grand_total * 100 if grand_total > 0
else None`, followed by a TOTAL row with the corporation total and no
percentage. -/
def groupRows (gt : ℚ) (ranks : List (Nat × Nat))
    (g : String × List OwnedMoon × ℚ) : List ReportRow :=
  g.2.1.map (fun m =>
    { corporation := g.1, value := m.value,
      rank := lookupRank ranks m.pk, total := none, is_total := false,
      grand_total_percent :=
        if 0 < gt then some (default_if_none m.value 0 / gt * 100)
        else none })
    ++ [{ corporation := g.1, value := none, rank := none,
          total := some g.2.2, is_total := true,
          grand_total_percent := none }]

/-- The full JSON payload of `report_owned_value_data`. -/
def report_owned_value_data (moons : List OwnedMoon) : List ReportRow :=
  (corporation_moons moons).foldl
    (fun data g => data ++ groupRows (grand_total moons) (moon_ranks moons) g)
    []

theorem addMoonToGroups_sum (gs : List (String × List OwnedMoon × ℚ))
    (m : OwnedMoon) :
    ((addMoonToGroups gs m).map (fun g => g.2.2)).sum
      = (gs.map (fun g => g.2.2)).sum + default_if_none m.value 0 := by
  induction gs with
  | nil => simp [addMoonToGroups]
  | cons g gs ih =>
    rw [addMoonToGroups]
    split
    · simp [List.map_cons, List.sum_cons]
      ring
    · simp only [List.map_cons, List.sum_cons, ih]
      ring

theorem addMoonToGroups_groups (gs : List (String × List OwnedMoon × ℚ))
    (m : OwnedMoon)
    (h : ∀ g ∈ gs, g.2.2 = (g.2.1.map (fun x => default_if_none x.value 0)).sum) :
    ∀ g ∈ addMoonToGroups gs m,
      g.2.2 = (g.2.1.map (fun x => default_if_none x.value 0)).sum := by
  induction gs with
  | nil =>
    intro g hg
    rw [addMoonToGroups] at hg
    rcases List.mem_singleton.mp hg with rfl
    simp
  | cons g0 gs ih =>
    intro g hg
    rw [addMoonToGroups] at hg
    revert hg
    split
    · intro hg
      rcases List.mem_cons.mp hg with rfl | hmem
      · have h0 := h g0 (List.mem_cons_self g0 gs)
        simp [h0]
      · exact h g (List.mem_cons_of_mem g0 hmem)
    · intro hg
      rcases List.mem_cons.mp hg with rfl | hmem
      · exact h g (List.mem_cons_self g gs)
      · exact ih (fun x hx => h x (List.mem_cons_of_mem g0 hx)) g hmem

theorem corporation_moons_sum (moons : List OwnedMoon) :
    ∀ acc : List (String × List OwnedMoon × ℚ),
      ((moons.foldl addMoonToGroups acc).map (fun g => g.2.2)).sum
        = (acc.map (fun g => g.2.2)).sum
          + (moons.map (fun m => default_if_none m.value 0)).sum := by
  induction moons with
  | nil => intro acc; simp
  | cons m moons ih =>
    intro acc
    rw [List.foldl_cons, ih (addMoonToGroups acc m), addMoonToGroups_sum]
    simp [List.map_cons, List.sum_cons]
    ring

theorem corporation_moons_groups (moons : List OwnedMoon) :
    ∀ g ∈ corporation_moons moons,
      g.2.2 = (g.2.1.map (fun x => default_if_none x.value 0)).sum := by
  have haux : ∀ (ms : List OwnedMoon)
      (acc : List (String × List OwnedMoon × ℚ)),
      (∀ g ∈ acc, g.2.2 = (g.2.1.map (fun x => default_if_none x.value 0)).sum) →
      ∀ g ∈ ms.foldl addMoonToGroups acc,
        g.2.2 = (g.2.1.map (fun x => default_if_none x.value 0)).sum := by
    intro ms
    induction ms with
    | nil => intro acc hacc; exact hacc
    | cons m ms ih =>
      intro acc hacc
      rw [List.foldl_cons]
      exact ih (addMoonToGroups acc m) (addMoonToGroups_groups acc m hacc)
  exact haux moons [] (fun g hg => absurd hg (List.not_mem_nil g))

theorem foldl_append_eq_bind {α β : Type} (f : α → List β) :
    ∀ (l : List α) (acc : List β),
      l.foldl (fun d g => d ++ f g) acc = acc ++ l.flatMap f := by
  intro l
  induction l with
  | nil => intro acc; simp
  | cons g l ih =>
    intro acc
    rw [List.foldl_cons, ih, List.flatMap_cons, List.append_assoc]

/-- C10: the report never divides by an ill grand total — the grand
total is the sum of all owned moons' values with `None` counted as 0,
each corporation's total is likewise the sum over its own moons, and a
moon row carries a percentage exactly when the grand total is strictly
positive, in which case it is the moon's value share; total rows carry
no percentage. -/
theorem c10_report_owned_value_safe (moons : List OwnedMoon) :
    grand_total moons
      = (moons.map (fun m => default_if_none m.value 0)).sum ∧
    (∀ g ∈ corporation_moons moons,
      g.2.2 = (g.2.1.map (fun x => default_if_none x.value 0)).sum) ∧
    (∀ row ∈ report_owned_value_data moons,
      (row.grand_total_percent.isSome → 0 < grand_total moons) ∧
      (0 < grand_total moons → row.is_total = false →
        row.grand_total_percent
          = some (default_if_none row.value 0 / grand_total moons * 100))) := by
  refine ⟨?_, corporation_moons_groups moons, ?_⟩
  · rw [grand_total, corporation_moons, corporation_moons_sum moons []]
    simp
  · intro row hrow
    rw [report_owned_value_data, foldl_append_eq_bind, List.nil_append] at hrow
    obtain ⟨g, _, hrowg⟩ := List.mem_flatMap.mp hrow
    rw [groupRows] at hrowg
    rcases List.mem_append.mp hrowg with hmap | hlast
    · obtain ⟨m, _, rfl⟩ := List.mem_map.mp hmap
      constructor
      · intro hsome
        by_contra hgt
        rw [if_neg hgt] at hsome
        exact Bool.noConfusion hsome
      · intro hgt _
        rw [if_pos hgt]
    · rcases List.mem_singleton.mp hlast with rfl
      constructor
      · intro hsome
        exact Bool.noConfusion hsome
      · intro _ hfalse
        exact Bool.noConfusion hfalse

/-- C10 witness: the one-corporation total for a single valued moon is
the moon's value. -/
theorem c10_witness :
    (("C", ([⟨1, "C", some 10⟩] : List OwnedMoon), (10 : ℚ))).2.2
      = ((("C", ([⟨1, "C", some 10⟩] : List OwnedMoon), (10 : ℚ))).2.1.map
          (fun x => default_if_none x.value 0)).sum :=
  (c10_report_owned_value_safe [⟨1, "C", some 10⟩]).2.1
    ("C", ([⟨1, "C", some 10⟩] : List OwnedMoon), (10 : ℚ))
    (List.mem_singleton.mpr rfl)

end Reports
